import Mathlib

/-
  Verification development for the dice-notation parser/roller core and the
  tool functions of `server.py`.

  The dice core (`DiceRoller`, imported by `server.py` as `dice_roller`) is not
  part of the available sources, so its data model, parser and roller are
  modelled from the specification (spec.md sections 3, 4, 6).  The functions
  `get_weather` and `generate_qr_code` are embedded from `server.py` directly,
  with the HTTP layer abstracted as an oracle argument.
-/

/-- Modelled from the spec: keep/drop modifier mode of a roll specification
(spec.md section 3, missing source file `dice_roller`). -/
inductive KeepMode where
  | none
  | keepHighest
  | keepLowest
  | dropHighest
  | dropLowest
deriving DecidableEq, Repr

/-- Modelled from the spec: a validated roll specification
(spec.md section 3, missing source file `dice_roller`). -/
structure RollSpec where
  count : Nat
  sides : Nat
  keepMode : KeepMode
  keepCount : Nat
  repeats : Nat
deriving DecidableEq, Repr

/-- Modelled from the spec: the machine-distinguishable kind of a parse error
(spec.md section 6, missing source file `dice_roller`). -/
inductive ParseErrorKind where
  | malformed
  | outOfRange
  | invalidModifierCount
  | unknownModifier
deriving DecidableEq, Repr

/-- Modelled from the spec: a parse error, kind plus human-readable message
(spec.md section 6, missing source file `dice_roller`). -/
structure ParseError where
  kind : ParseErrorKind
  message : String
deriving DecidableEq, Repr

/-- Scanned (pre-validation) fields extracted from an input string:
dice count, sides, and the keep/drop modifier. -/
structure ScanSpec where
  count : Nat
  sides : Nat
  keepMode : KeepMode
  keepCount : Nat
deriving DecidableEq, Repr

/-- Modelled from the spec: one die outcome, face value plus selection flag
(spec.md section 3, missing source file `dice_roller`). -/
structure DieOutcome where
  faceValue : Nat
  selected : Bool
deriving DecidableEq, Repr

/-- Modelled from the spec: the full result of one roll invocation
(spec.md section 3, missing source file `dice_roller`). -/
structure RollResult where
  spec : RollSpec
  outcomesPerRepeat : List (List DieOutcome)
  totalPerRepeat : List Nat
deriving DecidableEq, Repr

/-- Split a character list into its maximal leading run of decimal digits and
the remainder. -/
def takeDigits : List Char → List Char × List Char
  | [] => ([], [])
  | c :: cs =>
    if c.isDigit then
      let p := takeDigits cs
      (c :: p.1, p.2)
    else
      ([], c :: cs)

/-- Decimal value of a digit-character list. -/
def digitsToNat (ds : List Char) : Nat :=
  ds.foldl (fun acc c => acc * 10 + (c.toNat - 48)) 0

/-- Read the numeric count that must follow a keep/drop modifier token;
the count must be present and consume the rest of the input. -/
def modCount (m : KeepMode) (rest : List Char) : Except ParseError (KeepMode × Nat) :=
  match takeDigits rest with
  | ([], _) => Except.error ⟨ParseErrorKind.malformed, "modifier requires a count"⟩
  | (d :: ds, []) => Except.ok (m, digitsToNat (d :: ds))
  | (_ :: _, _ :: _) => Except.error ⟨ParseErrorKind.malformed, "unexpected trailing characters"⟩

/-- Modelled from the spec: scan the (lower-cased) modifier suffix of a dice
expression (spec.md section 4.1 grammar, with the section 9 resolution that a
bare drop modifier without an explicit h/l suffix is an unknown modifier). -/
def scanMod (cs : List Char) : Except ParseError (KeepMode × Nat) :=
  match cs with
  | [] => Except.ok (KeepMode.none, 0)
  | 'k' :: 'h' :: rest => modCount KeepMode.keepHighest rest
  | 'k' :: 'l' :: rest => modCount KeepMode.keepLowest rest
  | 'k' :: rest => modCount KeepMode.keepHighest rest
  | 'd' :: 'h' :: rest => modCount KeepMode.dropHighest rest
  | 'd' :: 'l' :: rest => modCount KeepMode.dropLowest rest
  | _ => Except.error ⟨ParseErrorKind.unknownModifier, "unrecognized modifier"⟩

/-- Assemble a `ScanSpec` from the scanned count digits, sides digits and the
remaining modifier suffix; the count defaults to 1 when its digits are
absent and the sides digits are required. -/
def scanSides (countDs sidesDs rest3 : List Char) : Except ParseError ScanSpec :=
  match sidesDs with
  | [] => Except.error ⟨ParseErrorKind.malformed, "missing or non-numeric sides"⟩
  | _ :: _ =>
    match scanMod (rest3.map Char.toLower) with
    | Except.error e => Except.error e
    | Except.ok mk =>
      Except.ok ⟨if countDs.isEmpty then 1 else digitsToNat countDs,
                 digitsToNat sidesDs, mk.1, mk.2⟩

/-- After the optional leading count, require the case-insensitive separator
d, then scan the sides digits and the modifier suffix. -/
def scanAfterCount (countDs rest : List Char) : Except ParseError ScanSpec :=
  match rest with
  | [] => Except.error ⟨ParseErrorKind.malformed, "expected d separator"⟩
  | c :: rest2 =>
    if c.toLower = 'd' then
      let q := takeDigits rest2
      scanSides countDs q.1 q.2
    else Except.error ⟨ParseErrorKind.malformed, "expected d separator"⟩

/-- Modelled from the spec: scan a dice expression given as a character list:
optional leading count (default 1), the case-insensitive separator d, required
numeric sides, optional modifier (spec.md section 4.1). -/
def scanCore (cs : List Char) : Except ParseError ScanSpec :=
  let p := takeDigits cs
  scanAfterCount p.1 p.2

/-- Scan a dice expression given as a string. -/
def scanDice (s : String) : Except ParseError ScanSpec :=
  scanCore s.data

/-- Modelled from the spec: parse a dice expression together with the
separately-passed repeats argument into a validated `RollSpec`, performing the
range validations of spec.md section 4.1 in the order listed there. -/
def parseDice (s : String) (repeats : Int) : Except ParseError RollSpec :=
  match scanDice s with
  | Except.error e => Except.error e
  | Except.ok sc =>
    if sc.sides < 1 ∨ sc.count < 1 then
      Except.error ⟨ParseErrorKind.outOfRange, "count and sides must be at least 1"⟩
    else if sc.count < sc.keepCount then
      Except.error ⟨ParseErrorKind.invalidModifierCount, "keep or drop count exceeds dice count"⟩
    else if repeats < 1 then
      Except.error ⟨ParseErrorKind.outOfRange, "repeats must be at least 1"⟩
    else
      Except.ok ⟨sc.count, sc.sides, sc.keepMode, sc.keepCount, repeats.toNat⟩

example : parseDice "2d20k1" 1 = Except.ok ⟨2, 20, KeepMode.keepHighest, 1, 1⟩ := rfl

example : parseDice "d20" 1 = Except.ok ⟨1, 20, KeepMode.none, 0, 1⟩ := rfl

example : parseDice "4d6dl1" 1 = Except.ok ⟨4, 6, KeepMode.dropLowest, 1, 1⟩ := rfl

example : parseDice "3d6k5" 1 =
    Except.error ⟨ParseErrorKind.invalidModifierCount, "keep or drop count exceeds dice count"⟩ := rfl

example : parseDice "2x6" 1 = Except.error ⟨ParseErrorKind.malformed, "expected d separator"⟩ := rfl

example : parseDice "2D20KL2" 1 = Except.ok ⟨2, 20, KeepMode.keepLowest, 2, 1⟩ := rfl

example : parseDice "2d6x3" 1 = Except.error ⟨ParseErrorKind.unknownModifier, "unrecognized modifier"⟩ := rfl

example : parseDice "0d6" 1 =
    Except.error ⟨ParseErrorKind.outOfRange, "count and sides must be at least 1"⟩ := rfl

example : parseDice "2d6" 0 =
    Except.error ⟨ParseErrorKind.outOfRange, "repeats must be at least 1"⟩ := rfl

/-- Modelled from the spec: draw `count` face values in `[1, sides]` from an
abstract raw randomness source `g` (spec.md section 4.2 step 1 and section 9:
randomness is injected as an abstract generator capability). -/
def drawFaces (g : Nat → Nat) (count sides : Nat) : List Nat :=
  (List.range count).map (fun i => 1 + g i % sides)

/-- Boolean ordering of die indices: descending by face value, ties broken by
original roll order (stable sort encoded as a total order on indices). -/
def descRel (faces : List Nat) (i j : Nat) : Bool :=
  decide (faces.getD j 0 < faces.getD i 0) ||
    (decide (faces.getD i 0 = faces.getD j 0) && decide (i ≤ j))

/-- Boolean ordering of die indices: ascending by face value, ties broken by
original roll order. -/
def ascRel (faces : List Nat) (i j : Nat) : Bool :=
  decide (faces.getD i 0 < faces.getD j 0) ||
    (decide (faces.getD i 0 = faces.getD j 0) && decide (i ≤ j))

/-- The die indices in selection order: descending (or ascending) face value,
ties broken by original order. -/
def sortIdx (faces : List Nat) (desc : Bool) : List Nat :=
  (List.range faces.length).mergeSort (if desc then descRel faces else ascRel faces)

/-- Mark each die selected or discarded: the first `kc` indices of `ord` are
the marked group; KEEP modes select that group, DROP modes select its
complement. -/
def selectByOrder (faces : List Nat) (ord : List Nat) (kc : Nat) (keepFirst : Bool) :
    List DieOutcome :=
  (List.range faces.length).map (fun i =>
    ⟨faces.getD i 0,
     if keepFirst then decide (i ∈ ord.take kc) else !decide (i ∈ ord.take kc)⟩)

/-- Modelled from the spec: apply the keep/drop selection to a list of drawn
face values (spec.md section 4.2 steps 2 and 3). -/
def markSelected (mode : KeepMode) (kc : Nat) (faces : List Nat) : List DieOutcome :=
  match mode with
  | KeepMode.none => faces.map (fun v => ⟨v, true⟩)
  | KeepMode.keepHighest => selectByOrder faces (sortIdx faces true) kc true
  | KeepMode.keepLowest => selectByOrder faces (sortIdx faces false) kc true
  | KeepMode.dropHighest => selectByOrder faces (sortIdx faces true) kc false
  | KeepMode.dropLowest => selectByOrder faces (sortIdx faces false) kc false

/-- Modelled from the spec: total of one repeat, the sum of the face values of
the selected dice (spec.md section 4.2 step 4). -/
def repeatTotal (outs : List DieOutcome) : Nat :=
  ((outs.filter (fun o => o.selected)).map (fun o => o.faceValue)).sum

/-- Modelled from the spec: one independent repeat of a validated `RollSpec`
(spec.md section 4.2). -/
def rollOneRepeat (spec : RollSpec) (g : Nat → Nat) : List DieOutcome :=
  markSelected spec.keepMode spec.keepCount (drawFaces g spec.count spec.sides)

/-- Modelled from the spec: execute a validated `RollSpec` `repeats` times
against a randomness source indexed by repeat and die (spec.md section 4.2). -/
def runRoll (spec : RollSpec) (g : Nat → Nat → Nat) : RollResult :=
  let outs := (List.range spec.repeats).map (fun r => rollOneRepeat spec (g r))
  ⟨spec, outs, outs.map repeatTotal⟩

/-- Modelled from the spec: the single exposed roll operation, parse then
execute (spec.md section 6); this is what `roll_dice` in `server.py` invokes
through `DiceRoller`. -/
def roll (g : Nat → Nat → Nat) (s : String) (repeats : Int) :
    Except ParseError RollResult :=
  match parseDice s repeats with
  | Except.error e => Except.error e
  | Except.ok spec => Except.ok (runRoll spec g)

/-- Descending comparison on face values, used to state what the sum of the
k largest face values is. -/
def geBool (a b : Nat) : Bool := decide (b ≤ a)

/-- Python `str.title()` on a run of characters: letters starting an
alphabetic run are upper-cased, letters continuing one are lower-cased. -/
def titleAux : Bool → List Char → List Char
  | _, [] => []
  | prevAlpha, c :: cs =>
    if c.isAlpha then
      (if prevAlpha then c.toLower else c.toUpper) :: titleAux true cs
    else
      c :: titleAux false cs

/-- Python `str.title()` as used on the weather description. -/
def pythonTitle (s : String) : String := ⟨titleAux false s.data⟩

/-- The JSON fields of a successful weather response that `get_weather`
reads, already rendered to strings; `windSpeed` is absent when the wind
object has no speed key. -/
structure WeatherFields where
  name : String
  country : String
  temp : String
  feelsLike : String
  description : String
  humidity : String
  windSpeed : Option String
deriving DecidableEq, Repr

/-- Outcome of the HTTP fetch performed by `get_weather`: a status-200
response whose JSON accesses all succeed, a status-200 response whose JSON
access raises, a non-200 status, or an exception raised by the request
itself. -/
inductive FetchOutcome where
  | fields (w : WeatherFields)
  | jsonFail (msg : String)
  | badStatus (code : Nat)
  | raised (msg : String)
deriving DecidableEq, Repr

/-- The fixed message returned when OPENWEATHER_API_KEY is not configured
(`server.py` line 32). -/
def weatherKeyMsg : String :=
  "Weather API key not configured. Please set OPENWEATHER_API_KEY in your .env file."

/-- The request URL built by `get_weather` (`server.py` lines 34 and 35). -/
def weatherUrl (key city countryCode : String) : String :=
  let location := if countryCode = "" then city else city ++ "," ++ countryCode
  "http://api.openweathermap.org/data/2.5/weather?q=" ++ location ++ "&appid=" ++ key
    ++ "&units=metric"

/-- The report built from a successful weather response
(`server.py` lines 44 to 51). -/
def weatherReport (w : WeatherFields) : String :=
  let base := "Weather in " ++ w.name ++ ", " ++ w.country ++ ":\n"
    ++ "Temperature: " ++ w.temp ++ "°C (feels like " ++ w.feelsLike ++ "°C)\n"
    ++ "Condition: " ++ pythonTitle w.description ++ "\n"
    ++ "Humidity: " ++ w.humidity ++ "%\n"
  match w.windSpeed with
  | some v => base ++ "Wind Speed: " ++ v ++ " m/s\n"
  | Option.none => base

/-- `get_weather` from `server.py` lines 27 to 55: the environment variable is
the `apiKey` argument (`none` models an unset variable) and the HTTP layer is
the oracle `http`.  The second component counts the HTTP requests performed. -/
def get_weather (apiKey : Option String) (http : String → FetchOutcome)
    (city countryCode : String) : String × Nat :=
  match apiKey with
  | Option.none => (weatherKeyMsg, 0)
  | some key =>
    if key = "" then (weatherKeyMsg, 0)
    else
      match http (weatherUrl key city countryCode) with
      | FetchOutcome.fields w => (weatherReport w, 1)
      | FetchOutcome.jsonFail msg => ("Error getting weather data: " ++ msg, 1)
      | FetchOutcome.badStatus _ =>
        ("Could not get weather data for " ++ city
          ++ ". Please check the city name and try again.", 1)
      | FetchOutcome.raised msg => ("Error getting weather data: " ++ msg, 1)

/-- Is this UTF-8 byte left unescaped by `requests.utils.quote` with its
default safe set: ASCII letters, digits, hyphen, period, underscore, tilde and
the safe character slash. -/
def isUnquotedByte (b : Nat) : Bool :=
  decide (65 ≤ b ∧ b ≤ 90) || decide (97 ≤ b ∧ b ≤ 122) || decide (48 ≤ b ∧ b ≤ 57) ||
    decide (b = 45) || decide (b = 46) || decide (b = 95) || decide (b = 126) || decide (b = 47)

/-- Upper-case hexadecimal digit of a value below 16. -/
def hexDigit (n : Nat) : Char :=
  if n < 10 then Char.ofNat (48 + n) else Char.ofNat (55 + n)

/-- Percent-encoding of one UTF-8 byte as performed by
`requests.utils.quote`. -/
def quoteByte (b : Nat) : String :=
  if isUnquotedByte b then String.singleton (Char.ofNat b)
  else "%" ++ String.singleton (hexDigit (b / 16)) ++ String.singleton (hexDigit (b % 16))

/-- The UTF-8 encoding of one character, as a list of byte values. -/
def charUtf8 (c : Char) : List Nat :=
  let v := c.toNat
  if v ≤ 0x7f then [v]
  else if v ≤ 0x7ff then [0xc0 + v / 64, 0x80 + v % 64]
  else if v ≤ 0xffff then [0xe0 + v / 4096, 0x80 + v / 64 % 64, 0x80 + v % 64]
  else [0xf0 + v / 262144, 0x80 + v / 4096 % 64, 0x80 + v / 64 % 64, 0x80 + v % 64]

/-- The UTF-8 byte values of a string. -/
def utf8Bytes (s : String) : List Nat :=
  s.data.flatMap (fun c => charUtf8 c)

/-- `requests.utils.quote`: percent-encode the UTF-8 bytes of a string,
leaving unreserved characters and the slash unescaped. -/
def urlQuote (s : String) : String :=
  String.join ((utf8Bytes s).map quoteByte)

/-- `generate_qr_code` from `server.py` lines 77 to 86. -/
def generate_qr_code (text : String) (size : String) : String :=
  let encoded := urlQuote text
  let qrUrl := "https://api.qrserver.com/v1/create-qr-code/?size=" ++ size
    ++ "&data=" ++ encoded
  "QR Code generated for: \x27" ++ text ++ "\x27\nQR Code URL: " ++ qrUrl
    ++ "\n\nYou can open this URL in your browser to view or download the QR code."

example : urlQuote "hello world/1" = "hello%20world/1" := rfl

example : pythonTitle "light rain" = "Light Rain" := rfl

theorem parseDice_scan_ok {s : String} {sc : ScanSpec} (r : Int)
    (hscan : scanDice s = Except.ok sc) :
    parseDice s r =
      (if sc.sides < 1 ∨ sc.count < 1 then
        Except.error ⟨ParseErrorKind.outOfRange, "count and sides must be at least 1"⟩
      else if sc.count < sc.keepCount then
        Except.error ⟨ParseErrorKind.invalidModifierCount,
          "keep or drop count exceeds dice count"⟩
      else if r < 1 then
        Except.error ⟨ParseErrorKind.outOfRange, "repeats must be at least 1"⟩
      else
        Except.ok ⟨sc.count, sc.sides, sc.keepMode, sc.keepCount, r.toNat⟩) := by
  unfold parseDice
  rw [hscan]

theorem parseDice_scan_error {s : String} {e : ParseError} (r : Int)
    (hscan : scanDice s = Except.error e) :
    parseDice s r = Except.error e := by
  unfold parseDice
  rw [hscan]

/-- C1: the roll operation is a total function: for every input string and
repeats value it either succeeds or returns a recoverable `ParseError` whose
kind is one of the four machine-distinguishable kinds; it never escapes with
an unhandled fatal failure. -/
theorem roll_never_fatal (g : Nat → Nat → Nat) (s : String) (r : Int) :
    (∃ res, roll g s r = Except.ok res) ∨
      ∃ e, roll g s r = Except.error e ∧
        (e.kind = ParseErrorKind.malformed ∨ e.kind = ParseErrorKind.outOfRange ∨
          e.kind = ParseErrorKind.invalidModifierCount ∨
          e.kind = ParseErrorKind.unknownModifier) := by
  cases h : roll g s r with
  | ok res => exact Or.inl ⟨res, rfl⟩
  | error e =>
    refine Or.inr ⟨e, rfl, ?_⟩
    cases e with
    | mk k m => cases k <;> simp

/-- C4: a keep/drop modifier count greater than the dice count is rejected
with InvalidModifierCount; in particular parsing "3d6k5" fails with
InvalidModifierCount. -/
theorem modifier_count_rejected (s : String) (r : Int) :
    (∀ sc, scanDice s = Except.ok sc → 1 ≤ sc.sides → 1 ≤ sc.count →
        sc.count < sc.keepCount →
        ∃ msg, parseDice s r = Except.error ⟨ParseErrorKind.invalidModifierCount, msg⟩) ∧
      parseDice "3d6k5" 1 =
        Except.error ⟨ParseErrorKind.invalidModifierCount,
          "keep or drop count exceeds dice count"⟩ := by
  refine ⟨?_, rfl⟩
  intro sc hscan h1 h2 hk
  refine ⟨"keep or drop count exceeds dice count", ?_⟩
  rw [parseDice_scan_ok r hscan, if_neg (by omega), if_pos hk]

/-- C4 witness at "3d6k5". -/
theorem modifier_count_rejected_witness :
    ∃ msg, parseDice "3d6k5" 1 =
      Except.error ⟨ParseErrorKind.invalidModifierCount, msg⟩ :=
  (modifier_count_rejected "3d6k5" 1).1 ⟨3, 6, KeepMode.keepHighest, 5⟩ rfl
    (by decide) (by decide) (by decide)

/-- C5: a scanned sides or count below 1 is rejected with OutOfRangeValue, a
repeats argument below 1 never succeeds and is rejected with OutOfRangeValue
on otherwise valid input, and a successful parse reproduces the scanned
values and the repeats argument exactly, with no clamping or coercion. -/
theorem out_of_range_rejected (s : String) (r : Int) :
    (∀ sc, scanDice s = Except.ok sc → (sc.sides < 1 ∨ sc.count < 1) →
        ∃ msg, parseDice s r = Except.error ⟨ParseErrorKind.outOfRange, msg⟩) ∧
      (r < 1 → ∀ sp, parseDice s r ≠ Except.ok sp) ∧
      (∀ sc, scanDice s = Except.ok sc → 1 ≤ sc.sides → 1 ≤ sc.count →
        sc.keepCount ≤ sc.count → r < 1 →
        ∃ msg, parseDice s r = Except.error ⟨ParseErrorKind.outOfRange, msg⟩) ∧
      (∀ sp, parseDice s r = Except.ok sp →
        1 ≤ sp.sides ∧ 1 ≤ sp.count ∧ 1 ≤ r ∧ (sp.repeats : Int) = r ∧
          ∀ sc, scanDice s = Except.ok sc →
            sp.count = sc.count ∧ sp.sides = sc.sides ∧
              sp.keepMode = sc.keepMode ∧ sp.keepCount = sc.keepCount) := by
  refine ⟨?_, ?_, ?_, ?_⟩
  · intro sc hscan h
    exact ⟨"count and sides must be at least 1", by rw [parseDice_scan_ok r hscan, if_pos h]⟩
  · intro hr sp h
    cases hscan : scanDice s with
    | error e =>
      rw [parseDice_scan_error r hscan] at h
      exact Except.noConfusion h
    | ok sc =>
      rw [parseDice_scan_ok r hscan, if_pos hr] at h
      split at h
      · exact Except.noConfusion h
      · split at h
        · exact Except.noConfusion h
        · exact Except.noConfusion h
  · intro sc hscan h1 h2 hk hr
    refine ⟨"repeats must be at least 1", ?_⟩
    rw [parseDice_scan_ok r hscan, if_neg (by omega), if_neg (by omega), if_pos hr]
  · intro sp h
    cases hscan : scanDice s with
    | error e =>
      rw [parseDice_scan_error r hscan] at h
      exact Except.noConfusion h
    | ok sc =>
      rw [parseDice_scan_ok r hscan] at h
      split at h
      · exact Except.noConfusion h
      · split at h
        · exact Except.noConfusion h
        · split at h
          · exact Except.noConfusion h
          · rename_i hrange hmod hrep
            have hsp : (⟨sc.count, sc.sides, sc.keepMode, sc.keepCount, r.toNat⟩ : RollSpec)
                = sp := (Except.ok.injEq _ _).mp h
            subst hsp
            refine ⟨?_, ?_, by omega, ?_, ?_⟩
            · show 1 ≤ sc.sides
              omega
            · show 1 ≤ sc.count
              omega
            · show ((r.toNat : Int) = r)
              exact Int.toNat_of_nonneg (by omega)
            · intro sc2 hscan2
              have hsc : sc = sc2 := (Except.ok.injEq _ _).mp hscan2
              subst hsc
              exact ⟨rfl, rfl, rfl, rfl⟩

/-- C5 witness: "0d6" is rejected with OutOfRangeValue, repeats 0 never
succeeds, repeats 0 on the valid "3d6" is rejected with OutOfRangeValue, and
the successful parse of "3d6" reproduces its scanned values. -/
theorem out_of_range_rejected_witness :
    (∃ msg, parseDice "0d6" 1 = Except.error ⟨ParseErrorKind.outOfRange, msg⟩) ∧
      (∀ sp, parseDice "3d6" 0 ≠ Except.ok sp) ∧
      (∃ msg, parseDice "3d6" 0 = Except.error ⟨ParseErrorKind.outOfRange, msg⟩) ∧
      (1 ≤ (2 : Int) ∧
        ∀ sp, parseDice "3d6" 2 = Except.ok sp → sp.count = 3 ∧ sp.sides = 6) := by
  refine ⟨?_, ?_, ?_, by decide, ?_⟩
  · exact (out_of_range_rejected "0d6" 1).1 ⟨0, 6, KeepMode.none, 0⟩ rfl (by decide)
  · exact (out_of_range_rejected "3d6" 0).2.1 (by decide)
  · exact (out_of_range_rejected "3d6" 0).2.2.1 ⟨3, 6, KeepMode.none, 0⟩ rfl
      (by decide) (by decide) (by decide) (by decide)
  · intro sp h
    have := ((out_of_range_rejected "3d6" 2).2.2.2 sp h).2.2.2.2 ⟨3, 6, KeepMode.none, 0⟩ rfl
    exact ⟨this.1, this.2.1⟩

/-- C6: parsing "2d20k1" with one repeat yields exactly the RollSpec with
count 2, sides 20, keep highest 1, repeats 1. -/
theorem parse_2d20k1 :
    parseDice "2d20k1" 1 = Except.ok ⟨2, 20, KeepMode.keepHighest, 1, 1⟩ := rfl

theorem scanSides_count {countDs sidesDs rest3 : List Char} {sc : ScanSpec}
    (h : scanSides countDs sidesDs rest3 = Except.ok sc) :
    sc.count = if countDs.isEmpty then 1 else digitsToNat countDs := by
  cases sidesDs with
  | nil => exact Except.noConfusion h
  | cons d ds =>
    unfold scanSides at h
    cases hm : scanMod (rest3.map Char.toLower) with
    | error e =>
      rw [hm] at h
      exact Except.noConfusion h
    | ok mk =>
      rw [hm] at h
      have hsc := (Except.ok.injEq _ _).mp h
      rw [← hsc]

theorem scanAfterCount_count {countDs rest : List Char} {sc : ScanSpec}
    (h : scanAfterCount countDs rest = Except.ok sc) :
    sc.count = if countDs.isEmpty then 1 else digitsToNat countDs := by
  cases rest with
  | nil => exact Except.noConfusion h
  | cons c rest2 =>
    have h2 : (if c.toLower = 'd' then
        scanSides countDs (takeDigits rest2).1 (takeDigits rest2).2
      else Except.error ⟨ParseErrorKind.malformed, "expected d separator"⟩)
        = Except.ok sc := h
    by_cases hcd : c.toLower = 'd'
    · rw [if_pos hcd] at h2
      exact scanSides_count h2
    · rw [if_neg hcd] at h2
      exact Except.noConfusion h2

/-- C7: when the leading count is omitted (the input does not start with a
digit), a successful scan defaults the dice count to 1; in particular "d20"
parses to one 20-sided die with no modifier. -/
theorem omitted_count_defaults (s : String) (sc : ScanSpec)
    (hscan : scanDice s = Except.ok sc)
    (hhead : ∀ c, s.data.head? = some c → c.isDigit = false) :
    sc.count = 1 ∧ parseDice "d20" 1 = Except.ok ⟨1, 20, KeepMode.none, 0, 1⟩ := by
  refine ⟨?_, rfl⟩
  unfold scanDice scanCore at hscan
  cases hd : s.data with
  | nil =>
    rw [hd] at hscan
    exact Except.noConfusion hscan
  | cons c cs =>
    have hc : c.isDigit = false := hhead c (by rw [hd]; rfl)
    have ht : takeDigits (c :: cs) = ([], c :: cs) := by
      simp [takeDigits, hc]
    rw [hd, ht] at hscan
    have h2 : scanAfterCount [] (c :: cs) = Except.ok sc := hscan
    have h3 := scanAfterCount_count h2
    simpa using h3

theorem map_getD_range (l : List Nat) :
    (List.range l.length).map (fun i => l.getD i 0) = l := by
  induction l with
  | nil => rfl
  | cons a t ih =>
    rw [List.length_cons, List.range_succ_eq_map]
    simp only [List.map_cons, List.getD_cons_zero, List.map_map]
    congr 1

theorem selectByOrder_map_faceValue (faces ord : List Nat) (kc : Nat) (keepFirst : Bool) :
    (selectByOrder faces ord kc keepFirst).map (fun o => o.faceValue) = faces := by
  unfold selectByOrder
  rw [List.map_map]
  exact map_getD_range faces

theorem markSelected_map_faceValue (mode : KeepMode) (kc : Nat) (faces : List Nat) :
    (markSelected mode kc faces).map (fun o => o.faceValue) = faces := by
  cases mode with
  | none =>
    show (faces.map (fun v => (⟨v, true⟩ : DieOutcome))).map (fun o => o.faceValue) = faces
    rw [List.map_map]
    exact List.map_id faces
  | keepHighest => exact selectByOrder_map_faceValue faces (sortIdx faces true) kc true
  | keepLowest => exact selectByOrder_map_faceValue faces (sortIdx faces false) kc true
  | dropHighest => exact selectByOrder_map_faceValue faces (sortIdx faces true) kc false
  | dropLowest => exact selectByOrder_map_faceValue faces (sortIdx faces false) kc false

theorem markSelected_length (mode : KeepMode) (kc : Nat) (faces : List Nat) :
    (markSelected mode kc faces).length = faces.length := by
  have h := congrArg List.length (markSelected_map_faceValue mode kc faces)
  rwa [List.length_map] at h

theorem runRoll_outcomes (spec : RollSpec) (g : Nat → Nat → Nat) :
    (runRoll spec g).outcomesPerRepeat
      = (List.range spec.repeats).map (fun r => rollOneRepeat spec (g r)) := rfl

theorem runRoll_totals (spec : RollSpec) (g : Nat → Nat → Nat) :
    (runRoll spec g).totalPerRepeat
      = (runRoll spec g).outcomesPerRepeat.map repeatTotal := rfl

theorem mem_drawFaces {g : Nat → Nat} {count sides x : Nat} (hs : 1 ≤ sides)
    (hx : x ∈ drawFaces g count sides) : 1 ≤ x ∧ x ≤ sides := by
  unfold drawFaces at hx
  rw [List.mem_map] at hx
  obtain ⟨i, hi, rfl⟩ := hx
  have hlt : g i % sides < sides := Nat.mod_lt _ (by omega)
  omega

theorem runRoll_face_bounds (spec : RollSpec) (g : Nat → Nat → Nat) (hs : 1 ≤ spec.sides) :
    ∀ outs ∈ (runRoll spec g).outcomesPerRepeat, ∀ o ∈ outs,
      1 ≤ o.faceValue ∧ o.faceValue ≤ spec.sides := by
  intro outs houts o ho
  rw [runRoll_outcomes, List.mem_map] at houts
  obtain ⟨r, hr, rfl⟩ := houts
  have hfv : o.faceValue ∈ (rollOneRepeat spec (g r)).map (fun o => o.faceValue) :=
    List.mem_map_of_mem _ ho
  have hfaces : (rollOneRepeat spec (g r)).map (fun o => o.faceValue)
      = drawFaces (g r) spec.count spec.sides :=
    markSelected_map_faceValue spec.keepMode spec.keepCount _
  rw [hfaces] at hfv
  exact mem_drawFaces hs hfv

/-- C2: for every RollSpec with sides at least 1, every face value produced by
the roller, for every die in every repeat, lies in the interval
[1, sides]. -/
theorem faces_in_range (spec : RollSpec) (g : Nat → Nat → Nat) (hs : 1 ≤ spec.sides) :
    ∀ outs ∈ (runRoll spec g).outcomesPerRepeat, ∀ o ∈ outs,
      1 ≤ o.faceValue ∧ o.faceValue ≤ spec.sides :=
  runRoll_face_bounds spec g hs

/-- C2 witness at a concrete spec and generator. -/
theorem faces_in_range_witness :
    1 ≤ (⟨2, 6, KeepMode.none, 0, 1⟩ : RollSpec).sides ∧
      ∀ outs ∈ (runRoll ⟨2, 6, KeepMode.none, 0, 1⟩ (fun _ i => i * 7)).outcomesPerRepeat,
        ∀ o ∈ outs, 1 ≤ o.faceValue ∧ o.faceValue ≤ (⟨2, 6, KeepMode.none, 0, 1⟩ : RollSpec).sides :=
  ⟨by decide, faces_in_range ⟨2, 6, KeepMode.none, 0, 1⟩ (fun _ i => i * 7) (by decide)⟩

/-- C8: rolling "1d100" with repeats 3 succeeds and yields exactly 3
independent repeats, each containing exactly 1 outcome whose face value lies
in [1, 100]. -/
theorem roll_1d100_repeats3 (g : Nat → Nat → Nat) :
    ∃ res, roll g "1d100" 3 = Except.ok res ∧
      res.outcomesPerRepeat.length = 3 ∧
      ∀ outs ∈ res.outcomesPerRepeat,
        outs.length = 1 ∧ ∀ o ∈ outs, 1 ≤ o.faceValue ∧ o.faceValue ≤ 100 := by
  refine ⟨runRoll ⟨1, 100, KeepMode.none, 0, 3⟩ g, rfl, ?_, ?_⟩
  · rw [runRoll_outcomes]
    simp
  · intro outs houts
    refine ⟨?_, ?_⟩
    · rw [runRoll_outcomes, List.mem_map] at houts
      obtain ⟨r, hr, rfl⟩ := houts
      show (markSelected KeepMode.none 0 (drawFaces (g r) 1 100)).length = 1
      rw [markSelected_length]
      simp [drawFaces]
    · intro o ho
      exact runRoll_face_bounds ⟨1, 100, KeepMode.none, 0, 3⟩ g (by decide) outs houts o ho

/-- C8 witness at a concrete generator. -/
theorem roll_1d100_repeats3_witness :
    ∃ res, roll (fun r i => r + i) "1d100" 3 = Except.ok res ∧
      res.outcomesPerRepeat.length = 3 ∧
      ∀ outs ∈ res.outcomesPerRepeat,
        outs.length = 1 ∧ ∀ o ∈ outs, 1 ≤ o.faceValue ∧ o.faceValue ≤ 100 :=
  roll_1d100_repeats3 (fun r i => r + i)

/-- C7 witness at "d20". -/
theorem omitted_count_defaults_witness :
    (⟨1, 20, KeepMode.none, 0⟩ : ScanSpec).count = 1 ∧
      parseDice "d20" 1 = Except.ok ⟨1, 20, KeepMode.none, 0, 1⟩ :=
  omitted_count_defaults "d20" ⟨1, 20, KeepMode.none, 0⟩ rfl
    (by
      intro c h
      have h2 : some c = some 'd' := h.symm.trans rfl
      have h3 : c = 'd' := Option.some.inj h2
      rw [h3]
      rfl)

theorem descRel_trans (faces : List Nat) :
    ∀ a b c : Nat, descRel faces a b = true → descRel faces b c = true →
      descRel faces a c = true := by
  intro a b c h1 h2
  unfold descRel at *
  simp only [Bool.or_eq_true, Bool.and_eq_true, decide_eq_true_eq] at *
  omega

theorem descRel_total (faces : List Nat) :
    ∀ a b : Nat, descRel faces a b || descRel faces b a := by
  intro a b
  unfold descRel
  simp only [Bool.or_eq_true, Bool.and_eq_true, decide_eq_true_eq]
  omega

theorem descRel_le {faces : List Nat} {a b : Nat} (h : descRel faces a b = true) :
    faces.getD b 0 ≤ faces.getD a 0 := by
  unfold descRel at h
  simp only [Bool.or_eq_true, Bool.and_eq_true, decide_eq_true_eq] at h
  omega

theorem geBool_trans :
    ∀ a b c : Nat, geBool a b = true → geBool b c = true → geBool a c = true := by
  intro a b c h1 h2
  unfold geBool at *
  simp only [decide_eq_true_eq] at *
  omega

theorem geBool_total : ∀ a b : Nat, geBool a b || geBool b a := by
  intro a b
  unfold geBool
  simp only [Bool.or_eq_true, decide_eq_true_eq]
  omega

theorem sortIdx_perm (faces : List Nat) (b : Bool) :
    List.Perm (sortIdx faces b) (List.range faces.length) :=
  List.mergeSort_perm _ _

theorem sortIdx_nodup (faces : List Nat) (b : Bool) : (sortIdx faces b).Nodup :=
  (sortIdx_perm faces b).nodup_iff.mpr (List.nodup_range _)

theorem mem_sortIdx {faces : List Nat} {b : Bool} {i : Nat} :
    i ∈ sortIdx faces b ↔ i < faces.length := by
  rw [(sortIdx_perm faces b).mem_iff, List.mem_range]

theorem sortIdx_sorted_desc (faces : List Nat) :
    List.Pairwise (fun i j => descRel faces i j = true) (sortIdx faces true) :=
  List.sorted_mergeSort (descRel_trans faces) (descRel_total faces) (List.range faces.length)

theorem sortIdx_map_getD (faces : List Nat) :
    (sortIdx faces true).map (fun i => faces.getD i 0) = faces.mergeSort geBool := by
  have hperm : List.Perm ((sortIdx faces true).map (fun i => faces.getD i 0))
      (faces.mergeSort geBool) := by
    have h1 : List.Perm ((sortIdx faces true).map (fun i => faces.getD i 0))
        ((List.range faces.length).map (fun i => faces.getD i 0)) :=
      (sortIdx_perm faces true).map _
    rw [map_getD_range] at h1
    exact h1.trans (List.mergeSort_perm faces geBool).symm
  have hs1 : List.Sorted (α := Nat) (· ≥ ·)
      ((sortIdx faces true).map (fun i => faces.getD i 0)) :=
    List.Pairwise.map _ (fun a b hab => descRel_le hab) (sortIdx_sorted_desc faces)
  have hs2 : List.Sorted (α := Nat) (· ≥ ·) (faces.mergeSort geBool) := by
    have h := List.sorted_mergeSort geBool_trans geBool_total faces
    exact h.imp (fun hab => by
      unfold geBool at hab
      simpa using hab)
  exact List.eq_of_perm_of_sorted hperm hs1 hs2

theorem filter_mem_take_perm (faces : List Nat) (k : Nat) :
    List.Perm
      ((List.range faces.length).filter (fun i => decide (i ∈ (sortIdx faces true).take k)))
      ((sortIdx faces true).take k) := by
  apply List.perm_of_nodup_nodup_toFinset_eq
  · exact (List.nodup_range _).filter _
  · exact (List.take_sublist _ _).nodup (sortIdx_nodup faces true)
  · apply Finset.ext
    intro a
    simp only [List.mem_toFinset, List.mem_filter, List.mem_range, decide_eq_true_eq]
    constructor
    · exact fun h => h.2
    · intro h
      exact ⟨mem_sortIdx.mp (List.mem_of_mem_take h), h⟩

theorem selectByOrder_filter_keep (faces ord : List Nat) (kc : Nat) :
    (selectByOrder faces ord kc true).filter (fun o => o.selected)
      = ((List.range faces.length).filter (fun i => decide (i ∈ ord.take kc))).map
          (fun i => (⟨faces.getD i 0, decide (i ∈ ord.take kc)⟩ : DieOutcome)) := by
  unfold selectByOrder
  rw [List.filter_map]
  rfl

theorem keepHighest_core (faces : List Nat) (k : Nat) (hk : k ≤ faces.length) :
    repeatTotal (selectByOrder faces (sortIdx faces true) k true)
        = ((faces.mergeSort geBool).take k).sum
      ∧ ((selectByOrder faces (sortIdx faces true) k true).filter
          (fun o => o.selected)).length = k := by
  have hD := selectByOrder_filter_keep faces (sortIdx faces true) k
  have hperm := filter_mem_take_perm faces k
  constructor
  · unfold repeatTotal
    rw [hD, List.map_map]
    show (((List.range faces.length).filter
        (fun i => decide (i ∈ (sortIdx faces true).take k))).map
          (fun i => faces.getD i 0)).sum = _
    rw [(hperm.map (fun i => faces.getD i 0)).sum_eq, List.map_take, sortIdx_map_getD]
  · rw [hD, List.length_map, hperm.length_eq, List.length_take]
    have hlen : (sortIdx faces true).length = faces.length :=
      (sortIdx_perm faces true).length_eq.trans (List.length_range _)
    omega

theorem keepHighest_stable (faces : List Nat) (k : Nat) :
    ∀ i j, i ∈ (sortIdx faces true).take k → j < faces.length →
      j ∉ (sortIdx faces true).take k → descRel faces i j = true := by
  intro i j hi hj hjn
  have hsorted := sortIdx_sorted_desc faces
  have hord : sortIdx faces true
      = (sortIdx faces true).take k ++ (sortIdx faces true).drop k :=
    (List.take_append_drop _ _).symm
  rw [hord, List.pairwise_append] at hsorted
  have hjord : j ∈ sortIdx faces true := mem_sortIdx.mpr hj
  rw [hord, List.mem_append] at hjord
  cases hjord with
  | inl h => exact absurd h hjn
  | inr h => exact hsorted.2.2 i hi j h

/-- C3: for every valid RollSpec with keepMode KEEP_HIGHEST and keepCount k
(k at most count), each repeat's total equals the sum of the k largest face
values (the first k entries of the descending sort of that repeat's faces),
exactly k outcomes are marked selected, and every selected die precedes every
unselected die in the descending order whose ties are broken by original roll
order (stable sort). -/
theorem keep_highest_correct (spec : RollSpec) (g : Nat → Nat → Nat)
    (hm : spec.keepMode = KeepMode.keepHighest) (hk : spec.keepCount ≤ spec.count) :
    (runRoll spec g).totalPerRepeat = (runRoll spec g).outcomesPerRepeat.map repeatTotal ∧
      ∀ outs ∈ (runRoll spec g).outcomesPerRepeat,
        repeatTotal outs
            = (((outs.map (fun o => o.faceValue)).mergeSort geBool).take spec.keepCount).sum
          ∧ (outs.filter (fun o => o.selected)).length = spec.keepCount
          ∧ ∀ i j oi oj, outs[i]? = some oi → outs[j]? = some oj →
              oi.selected = true → oj.selected = false →
              descRel (outs.map (fun o => o.faceValue)) i j = true := by
  refine ⟨rfl, ?_⟩
  intro outs houts
  rw [runRoll_outcomes, List.mem_map] at houts
  obtain ⟨r, hr, rfl⟩ := houts
  have hout : rollOneRepeat spec (g r)
      = selectByOrder (drawFaces (g r) spec.count spec.sides)
          (sortIdx (drawFaces (g r) spec.count spec.sides) true) spec.keepCount true := by
    unfold rollOneRepeat
    rw [hm]
    rfl
  rw [hout]
  set faces := drawFaces (g r) spec.count spec.sides with hfaces
  have hlenf : faces.length = spec.count := by
    rw [hfaces]
    unfold drawFaces
    rw [List.length_map, List.length_range]
  have hkf : spec.keepCount ≤ faces.length := by omega
  have hmapf : (selectByOrder faces (sortIdx faces true) spec.keepCount true).map
      (fun o => o.faceValue) = faces := selectByOrder_map_faceValue _ _ _ _
  rw [hmapf]
  refine ⟨(keepHighest_core faces spec.keepCount hkf).1,
    (keepHighest_core faces spec.keepCount hkf).2, ?_⟩
  intro i j oi oj hi hj hisel hjsel
  have hi2 : (((List.range faces.length).map (fun i =>
      (⟨faces.getD i 0, decide (i ∈ (sortIdx faces true).take spec.keepCount)⟩
        : DieOutcome)))[i]?) = some oi := hi
  have hj2 : (((List.range faces.length).map (fun i =>
      (⟨faces.getD i 0, decide (i ∈ (sortIdx faces true).take spec.keepCount)⟩
        : DieOutcome)))[j]?) = some oj := hj
  rw [List.getElem?_map] at hi2 hj2
  by_cases hilt : i < faces.length
  · by_cases hjlt : j < faces.length
    · rw [List.getElem?_range hilt] at hi2
      rw [List.getElem?_range hjlt] at hj2
      have hoi : (⟨faces.getD i 0,
          decide (i ∈ (sortIdx faces true).take spec.keepCount)⟩ : DieOutcome) = oi :=
        Option.some.inj hi2
      have hoj : (⟨faces.getD j 0,
          decide (j ∈ (sortIdx faces true).take spec.keepCount)⟩ : DieOutcome) = oj :=
        Option.some.inj hj2
      have hiS : i ∈ (sortIdx faces true).take spec.keepCount := by
        rw [← hoi] at hisel
        simpa using hisel
      have hjS : j ∉ (sortIdx faces true).take spec.keepCount := by
        rw [← hoj] at hjsel
        simpa using hjsel
      exact keepHighest_stable faces spec.keepCount i j hiS hjlt hjS
    · rw [List.getElem?_eq_none (by simpa using hjlt)] at hj2
      simp at hj2
  · rw [List.getElem?_eq_none (by simpa using hilt)] at hi2
    simp at hi2

/-- C3 witness at a concrete spec and generator. -/
theorem keep_highest_correct_witness :
    (⟨3, 6, KeepMode.keepHighest, 2, 1⟩ : RollSpec).keepCount
        ≤ (⟨3, 6, KeepMode.keepHighest, 2, 1⟩ : RollSpec).count ∧
      ((runRoll ⟨3, 6, KeepMode.keepHighest, 2, 1⟩ (fun r i => r + 5 * i)).totalPerRepeat
          = (runRoll ⟨3, 6, KeepMode.keepHighest, 2, 1⟩
              (fun r i => r + 5 * i)).outcomesPerRepeat.map repeatTotal ∧
        ∀ outs ∈ (runRoll ⟨3, 6, KeepMode.keepHighest, 2, 1⟩
            (fun r i => r + 5 * i)).outcomesPerRepeat,
          repeatTotal outs
              = (((outs.map (fun o => o.faceValue)).mergeSort geBool).take
                  (⟨3, 6, KeepMode.keepHighest, 2, 1⟩ : RollSpec).keepCount).sum
            ∧ (outs.filter (fun o => o.selected)).length
                = (⟨3, 6, KeepMode.keepHighest, 2, 1⟩ : RollSpec).keepCount
            ∧ ∀ i j oi oj, outs[i]? = some oi → outs[j]? = some oj →
                oi.selected = true → oj.selected = false →
                descRel (outs.map (fun o => o.faceValue)) i j = true) :=
  ⟨by decide, keep_highest_correct ⟨3, 6, KeepMode.keepHighest, 2, 1⟩
    (fun r i => r + 5 * i) rfl (by decide)⟩

theorem get_weather_none (http : String → FetchOutcome) (city countryCode : String) :
    get_weather Option.none http city countryCode = (weatherKeyMsg, 0) := rfl

theorem get_weather_some (key : String) (http : String → FetchOutcome)
    (city countryCode : String) :
    get_weather (some key) http city countryCode =
      (if key = "" then (weatherKeyMsg, 0)
      else
        match http (weatherUrl key city countryCode) with
        | FetchOutcome.fields w => (weatherReport w, 1)
        | FetchOutcome.jsonFail msg => ("Error getting weather data: " ++ msg, 1)
        | FetchOutcome.badStatus _ =>
          ("Could not get weather data for " ++ city
            ++ ". Please check the city name and try again.", 1)
        | FetchOutcome.raised msg => ("Error getting weather data: " ++ msg, 1)) := rfl

/-- C9: get_weather returns a plain message for every outcome of the HTTP
layer (a raised exception becomes the error-message string, so nothing
propagates to the caller), it performs at most one HTTP request, and when the
OPENWEATHER_API_KEY environment variable is unset or empty it returns the
fixed configuration message having performed no HTTP request at all. -/
theorem get_weather_no_key_no_request (apiKey : Option String)
    (http : String → FetchOutcome) (city countryCode : String) :
    ((apiKey = Option.none ∨ apiKey = some "") →
        get_weather apiKey http city countryCode = (weatherKeyMsg, 0)) ∧
      ((get_weather apiKey http city countryCode).2 = 0 ∨
        (get_weather apiKey http city countryCode).2 = 1) ∧
      (∀ key msg, apiKey = some key → key ≠ "" →
        http (weatherUrl key city countryCode) = FetchOutcome.raised msg →
        get_weather apiKey http city countryCode
          = ("Error getting weather data: " ++ msg, 1)) := by
  refine ⟨?_, ?_, ?_⟩
  · intro h
    cases h with
    | inl h => rw [h, get_weather_none]
    | inr h => rw [h, get_weather_some, if_pos rfl]
  · cases apiKey with
    | none => exact Or.inl rfl
    | some key =>
      rw [get_weather_some]
      by_cases hk : key = ""
      · rw [if_pos hk]
        exact Or.inl rfl
      · rw [if_neg hk]
        cases http (weatherUrl key city countryCode) with
        | fields w => exact Or.inr rfl
        | jsonFail msg => exact Or.inr rfl
        | badStatus code => exact Or.inr rfl
        | raised msg => exact Or.inr rfl
  · intro key msg hkey hne hraise
    subst hkey
    rw [get_weather_some, if_neg hne, hraise]

/-- C9 witness: unset key yields the fixed message with zero requests, and a
raised request exception is returned as an error string. -/
theorem get_weather_no_key_no_request_witness :
    get_weather Option.none (fun _ => FetchOutcome.badStatus 500) "Paris" ""
        = (weatherKeyMsg, 0) ∧
      get_weather (some "k123") (fun _ => FetchOutcome.raised "boom") "Paris" ""
        = ("Error getting weather data: " ++ "boom", 1) :=
  ⟨(get_weather_no_key_no_request Option.none (fun _ => FetchOutcome.badStatus 500)
      "Paris" "").1 (Or.inl rfl),
    (get_weather_no_key_no_request (some "k123") (fun _ => FetchOutcome.raised "boom")
      "Paris" "").2.2 "k123" "boom" rfl (by decide) rfl⟩

/-- C10: generate_qr_code is a total function of its inputs (so it never
raises to its caller) whose result embeds the requested size and the
URL-percent-encoded input text inside the qrserver.com URL. -/
theorem generate_qr_embeds (text size : String) :
    (∃ a b, generate_qr_code text size
        = a ++ ("size=" ++ size ++ "&data=" ++ urlQuote text) ++ b) ∧
      ∃ a b, generate_qr_code text size
        = a ++ "https://api.qrserver.com/v1/create-qr-code/" ++ b := by
  constructor
  · refine ⟨"QR Code generated for: \x27" ++ text
      ++ "\x27\nQR Code URL: https://api.qrserver.com/v1/create-qr-code/?",
      "\n\nYou can open this URL in your browser to view or download the QR code.", ?_⟩
    unfold generate_qr_code
    have hsplit : ("https://api.qrserver.com/v1/create-qr-code/?size=" : String)
        = "https://api.qrserver.com/v1/create-qr-code/?" ++ "size=" := rfl
    have hjoin : ("QR Code generated for: \x27" : String) ++ text
          ++ "\x27\nQR Code URL: https://api.qrserver.com/v1/create-qr-code/?"
        = "QR Code generated for: \x27" ++ text ++ "\x27\nQR Code URL: "
          ++ "https://api.qrserver.com/v1/create-qr-code/?" := by
      rw [String.append_assoc, String.append_assoc]
      have h2 : ("\x27\nQR Code URL: https://api.qrserver.com/v1/create-qr-code/?" : String)
          = "\x27\nQR Code URL: " ++ "https://api.qrserver.com/v1/create-qr-code/?" := rfl
      rw [h2]
      exact (String.append_assoc _ _ _).symm
    rw [hsplit, hjoin]
    simp only [String.append_assoc]
  · refine ⟨"QR Code generated for: \x27" ++ text ++ "\x27\nQR Code URL: ",
      "?size=" ++ size ++ "&data=" ++ urlQuote text
        ++ "\n\nYou can open this URL in your browser to view or download the QR code.", ?_⟩
    unfold generate_qr_code
    have hsplit : ("https://api.qrserver.com/v1/create-qr-code/?size=" : String)
        = "https://api.qrserver.com/v1/create-qr-code/" ++ "?size=" := rfl
    rw [hsplit]
    simp only [String.append_assoc]
